import Mathlib

/-
Verification of the gmail-cli core against its natural-language specification.

The JavaScript sources are shallowly embedded: JS strings become `String`
(lists of characters), JS `null`/`undefined` fields become `Option`, thrown
exceptions become `Except`, and effectful collaborators (the filesystem, the
network fetch of labels, the OAuth refresh call, the current time) become
explicit parameters.  JS truthiness of a string (false for null/undefined and
for the empty string) is modelled by `truthyStr`, and of a number (false for
null/undefined and for 0) by `truthyInt`.
-/

/-- JS truthiness of a possibly-null string: `null`, `undefined` and `""` are
falsy, every other string is truthy. -/
def truthyStr : Option String → Bool
  | none => false
  | some s => s ≠ ""

/-- JS truthiness of a possibly-null number: `null`, `undefined` and `0` are
falsy. -/
def truthyInt : Option Int → Bool
  | none => false
  | some i => i ≠ 0

/-- JS template interpolation of a possibly-null string: `null` prints as the
four characters `null`. -/
def jsTmpl : Option String → String
  | none => "null"
  | some s => s

/-- JS `a || b` on a possibly-null string `a`: the default is used when `a` is
null or empty. -/
def jsOr : Option String → String → String
  | none, d => d
  | some s, d => if s = "" then d else s

/-- JS `String.prototype.startsWith`. -/
def jsStartsWith (s patt : String) : Bool :=
  patt.data.isPrefixOf s.data

/-- Lower-cased character data of a string (JS `toLowerCase`, ASCII range). -/
def lowerData (s : String) : List Char :=
  s.data.map Char.toLower

/-- One entry of a Gmail message header list. -/
structure Header where
  name : String
  value : String
deriving DecidableEq

/-- One MIME part of a Gmail payload: its media type, its inline body data
(`body.data`, base64url, absent for container parts) and its child parts.
The top-level payload is itself a `MimePart`. -/
inductive MimePart where
  | mk (mimeType : String) (bodyData : Option String) (parts : List MimePart)

def MimePart.mimeType : MimePart → String
  | .mk mt _ _ => mt

def MimePart.bodyData : MimePart → Option String
  | .mk _ bd _ => bd

def MimePart.parts : MimePart → List MimePart
  | .mk _ _ ps => ps

/-- A fetched Gmail message as the core reads it: the flat header list of the
top-level payload (`message.data.payload.headers`), the payload part tree
(`message.data.payload`) and the thread identifier (`message.data.threadId`). -/
structure Message where
  headers : List Header
  payload : MimePart
  threadId : String

/-- gmail.js lines 59-64: case-insensitive lookup of the first matching header
of the top-level payload; `null` when absent. -/
def getHeader (message : Message) (headerName : String) : Option String :=
  (message.headers.find? (fun h => lowerData h.name == lowerData headerName)).map (·.value)

/-- The standard base64 alphabet used by Node `Buffer` encoding. -/
def b64Alphabet : List Char :=
  "ABCDEFGHIJKLMNOPQRSTUVWXYZabcdefghijklmnopqrstuvwxyz0123456789+/".data

/-- Character of a 6-bit group. -/
def encChar (n : Nat) : Char :=
  b64Alphabet.getD n 'A'

/-- 6-bit value of a base64 character. -/
def decCharVal (c : Char) : Nat :=
  b64Alphabet.findIdx (· == c)

/-- email-sender.js lines 86-87: `+` is replaced by `-` and `/` by `_`. -/
def substToUrl (c : Char) : Char :=
  if c = '+' then '-' else if c = '/' then '_' else c

/-- gmail.js line 72: `-` is replaced by `+` and `_` by `/`. -/
def substFromUrl (c : Char) : Char :=
  if c = '-' then '+' else if c = '_' then '/' else c

/-- Node `Buffer.prototype.toString("base64")` on a byte list: standard base64
with `=` padding. -/
def b64EncodeRaw : List Nat → List Char
  | [] => []
  | [b1] => [encChar (b1 / 4), encChar (b1 % 4 * 16), '=', '=']
  | [b1, b2] => [encChar (b1 / 4), encChar (b1 % 4 * 16 + b2 / 16), encChar (b2 % 16 * 4), '=']
  | b1 :: b2 :: b3 :: rest =>
    encChar (b1 / 4) :: encChar (b1 % 4 * 16 + b2 / 16) ::
      encChar (b2 % 16 * 4 + b3 / 64) :: encChar (b3 % 64) :: b64EncodeRaw rest

/-- email-sender.js line 88: `.replace(/=+$/, "")`, removal of the trailing
run of `=` characters. -/
def stripTrailingEq : List Char → List Char
  | [] => []
  | c :: rest =>
    match stripTrailingEq rest with
    | [] => if c = '=' then [] else [c]
    | r => c :: r

/-- Node `Buffer.from(str, "base64")` on padding-free or padded base64 text:
4-character groups yield 3 bytes, a trailing group of 3 characters yields 2
bytes, of 2 characters 1 byte; `=` ends the data. -/
def b64DecodeRaw : List Char → List Nat
  | c1 :: c2 :: c3 :: c4 :: rest =>
    if c3 = '=' then [decCharVal c1 * 4 + decCharVal c2 / 16]
    else if c4 = '=' then
      [decCharVal c1 * 4 + decCharVal c2 / 16, decCharVal c2 % 16 * 16 + decCharVal c3 / 4]
    else
      (decCharVal c1 * 4 + decCharVal c2 / 16) ::
        (decCharVal c2 % 16 * 16 + decCharVal c3 / 4) ::
        (decCharVal c3 % 4 * 64 + decCharVal c4) :: b64DecodeRaw rest
  | [c1, c2, c3] =>
    if c3 = '=' then [decCharVal c1 * 4 + decCharVal c2 / 16]
    else [decCharVal c1 * 4 + decCharVal c2 / 16, decCharVal c2 % 16 * 16 + decCharVal c3 / 4]
  | [c1, c2] => [decCharVal c1 * 4 + decCharVal c2 / 16]
  | _ => []

/-- gmail.js lines 69-75: base64url decoding of provider body data.  Node
`toString("utf8")` is modelled by reading each byte as a character code, which
is exact for ASCII payloads. -/
def decodeBase64Url (str : String) : String :=
  if str = "" then ""
  else String.mk ((b64DecodeRaw (str.data.map substFromUrl)).map Char.ofNat)

/-- Result of gmail.js `getMessageBody`: the plain-text and HTML accumulators. -/
structure MessageBody where
  text : String
  html : String
deriving DecidableEq

/-- gmail.js lines 86-90 and 98-104: a single part (or the top-level payload)
updates the accumulators when its media type is exactly `text/plain` or
`text/html` and it carries truthy inline body data. -/
def bodyStep (acc : MessageBody) (mt : String) (bd : Option String) : MessageBody :=
  if mt == "text/plain" && truthyStr bd then { acc with text := decodeBase64Url (bd.getD "") }
  else if mt == "text/html" && truthyStr bd then { acc with html := decodeBase64Url (bd.getD "") }
  else acc

mutual

/-- gmail.js lines 85-95 `extractBody`: the part itself is examined, then its
children, left to right. -/
def extractBody (acc : MessageBody) : MimePart → MessageBody
  | .mk mt bd ps => extractParts (bodyStep acc mt bd) ps

def extractParts (acc : MessageBody) : List MimePart → MessageBody
  | [] => acc
  | p :: rest => extractParts (extractBody acc p) rest

end

/-- gmail.js lines 80-112: the top-level payload is checked first as a
possible non-multipart body, then each child part tree is walked. -/
def getMessageBody (message : Message) : MessageBody :=
  let payload := message.payload
  let acc := bodyStep ⟨"", ""⟩ payload.mimeType payload.bodyData
  extractParts acc payload.parts

mutual

/-- The order in which gmail.js `getMessageBody` examines parts: the node
itself, then the full subtree of each child, left to right. -/
def dfsOrder : MimePart → List MimePart
  | .mk mt bd ps => .mk mt bd ps :: dfsList ps

def dfsList : List MimePart → List MimePart
  | [] => []
  | p :: rest => dfsOrder p ++ dfsList rest

end

/-- The last element of the list satisfying the test, if any. -/
def lastMatch? (pred : MimePart → Bool) : List MimePart → Option MimePart
  | [] => none
  | q :: rest =>
    match lastMatch? pred rest with
    | some r => some r
    | none => if pred q then some q else none

/-- A part that would overwrite the plain-text accumulator. -/
def isPlainPart (q : MimePart) : Bool :=
  q.mimeType == "text/plain" && truthyStr q.bodyData

/-- A part that would overwrite the HTML accumulator. -/
def isHtmlPart (q : MimePart) : Bool :=
  q.mimeType == "text/html" && truthyStr q.bodyData

/-- A Gmail label as the core reads it: provider identifier and display name. -/
structure GmailLabel where
  id : String
  name : String
deriving DecidableEq

/-- gmail.js lines 29-36 `getLabels`: returns the cached list unless the cache
is null or a refresh is forced, in which case one fetch replaces the cache.
The network fetch result is the parameter `fetched`; the third component
counts fetches performed by the call. -/
def getLabels (labelCache : Option (List GmailLabel)) (refresh : Bool)
    (fetched : List GmailLabel) : List GmailLabel × Option (List GmailLabel) × Nat :=
  if labelCache.isNone || refresh then (fetched, some fetched, 1)
  else (labelCache.getD [], labelCache, 0)

/-- JS `Array.prototype.join(sep)`. -/
def joinSep (sep : String) : List String → String
  | [] => ""
  | [s] => s
  | s :: rest => s ++ sep ++ joinSep sep rest

/-- gmail.js lines 48-50: the message of the label-not-found error, carrying
every currently known label name. -/
def labelNotFoundMsg (labelName : String) (labels : List GmailLabel) : String :=
  "Label \"" ++ labelName ++ "\" not found\nAvailable labels: " ++
    joinSep ", " (labels.map (·.name)) ++ "\nUse \x27gmail label list\x27 to see all labels"

/-- gmail.js lines 41-54 `getLabelIdByName`: resolves through `getLabels`
without forcing a refresh, takes the first label whose name is strictly equal
to the query, and otherwise fails with the message listing all known names.
Returns (outcome, cache after the call, number of fetches performed). -/
def getLabelIdByName (labelCache : Option (List GmailLabel)) (fetched : List GmailLabel)
    (labelName : String) : Except String String × Option (List GmailLabel) × Nat :=
  match getLabels labelCache false fetched with
  | (labels, cacheAfter, fetches) =>
    match labels.find? (fun l => l.name == labelName) with
    | some label => (.ok label.id, cacheAfter, fetches)
    | none => (.error (labelNotFoundMsg labelName labels), cacheAfter, fetches)

/-- email-sender.js line 6. -/
def MAX_MESSAGE_SIZE : Nat := 35 * 1024 * 1024

/-- The failures of `buildMimeMessage` attachment validation. -/
inductive MimeError where
  | attachmentNotFound (filePath : String)
  | attachmentTooLarge (filePath : String)
  | messageTooLarge
deriving DecidableEq

/-- email-sender.js lines 11-24 `validateAttachment`: the filesystem is the
parameter `fsSize` mapping an existing path to its byte size.  A missing file
fails, a file strictly larger than 35 MB fails, otherwise the size is
returned. -/
def validateAttachment (fsSize : String → Option Nat) (filePath : String) :
    Except MimeError Nat :=
  match fsSize filePath with
  | none => .error (.attachmentNotFound filePath)
  | some size =>
    if size > MAX_MESSAGE_SIZE then .error (.attachmentTooLarge filePath) else .ok size

/-- email-sender.js lines 59-63: the `attachments.map` loop, validating each
path in list order and accumulating `totalSize`; the first failure aborts. -/
def validateAll (fsSize : String → Option Nat) : List String → Except MimeError Nat
  | [] => .ok 0
  | p :: rest =>
    match validateAttachment fsSize p with
    | .error e => .error e
    | .ok size =>
      match validateAll fsSize rest with
      | .error e => .error e
      | .ok total => .ok (size + total)

/-- email-sender.js lines 57-70: the whole attachment block of
`buildMimeMessage` — skipped entirely for an empty list, otherwise the map
loop followed by the total-size comparison. -/
def validateAttachments (fsSize : String → Option Nat) (attachments : List String) :
    Except MimeError Nat :=
  if attachments.isEmpty then .ok 0
  else
    match validateAll fsSize attachments with
    | .error e => .error e
    | .ok totalSize =>
      if totalSize > MAX_MESSAGE_SIZE then .error .messageTooLarge else .ok totalSize

/-- The structured request of email-sender.js `buildMimeMessage`. -/
structure SendOptions where
  toAddr : String
  subject : String
  bodyTxt : Option String
  bodyHtml : Option String
  cc : List String
  bcc : List String
  attachments : List String
  headers : List Header

/-- Modelled from the spec: the RFC-822 rendering that the external nodemailer
library performs inside `buildMimeMessage` (the library is not part of src/).
Per the spec the raw message carries the recipient, the subject and the body;
it is modelled as the two header lines, a blank separator line, and the
plain-text body. -/
def mimeRender (options : SendOptions) : String :=
  ("To: " ++ options.toAddr) ++ "\n" ++
    (("Subject: " ++ options.subject) ++ "\n" ++ ("" ++ "\n" ++ options.bodyTxt.getD ""))

/-- The byte list of a string (Node `Buffer.from`, exact for ASCII text). -/
def strBytes (s : String) : List Nat :=
  s.data.map Char.toNat

/-- email-sender.js lines 84-90: base64 of the raw message, `+` and `/`
replaced by `-` and `_`, trailing `=` padding stripped. -/
def encodeRawMessage (rawMessage : List Nat) : String :=
  String.mk (stripTrailingEq ((b64EncodeRaw rawMessage).map substToUrl))

/-- email-sender.js lines 29-91 `buildMimeMessage`: attachment validation
followed by rendering and transport encoding. -/
def buildMimeMessage (fsSize : String → Option Nat) (options : SendOptions) :
    Except MimeError String :=
  match validateAttachments fsSize options.attachments with
  | .error e => .error e
  | .ok _ => .ok (encodeRawMessage (strBytes (mimeRender options)))

/-- JS `"..."​.split("\n")` (here written without the zero-width space):
splitting at every newline, keeping empty pieces. -/
def splitNlAux : List Char → List Char → List String
  | [], acc => [String.mk acc.reverse]
  | c :: cs, acc =>
    if c = '\n' then String.mk acc.reverse :: splitNlAux cs []
    else splitNlAux cs (c :: acc)

/-- JS `s.split("\n")`. -/
def splitNl (s : String) : List String :=
  splitNlAux s.data []

/-- JS `lines.join("\n")`. -/
def joinNl : List String → String
  | [] => ""
  | [s] => s
  | s :: rest => s ++ "\n" ++ joinNl rest

/-- email-sender.js lines 211-214: every line of the original plain body
prefixed with `> `. -/
def quotedTextOf (originalText : String) : String :=
  joinNl ((splitNl originalText).map (fun line => "> " ++ line))

/-- The failure of `replyToEmail` on a malformed original message. -/
inductive ReplyError where
  | missingMessageId
deriving DecidableEq

/-- The caller-supplied part of a `replyToEmail` request that the reply
composition reads. -/
structure ReplyOptions where
  bodyTxt : Option String
  bodyHtml : Option String
  quote : Bool

/-- Everything `replyToEmail` derives and passes to `buildMimeMessage` and to
the send/draft call. -/
structure ReplyBuild where
  toAddr : Option String
  subject : String
  bodyTxt : Option String
  bodyHtml : Option String
  inReplyTo : String
  references : String
  threadId : String
deriving DecidableEq

/-- The lazy attempt of the regex `<(.+?)>` at one position: the shortest
nonempty run after `<` that reaches a `>` and contains no newline (`.` does
not match a newline). -/
def angleAttempt (rest : List Char) : Option String :=
  match rest with
  | [] => none
  | c0 :: tail =>
    match tail.findIdx? (· == '>') with
    | none => none
    | some j =>
      let content := c0 :: tail.take j
      if content.contains '\n' then none else some (String.mk content)

/-- The scan of `originalFrom.match(/<(.+?)>/)`: first position where the
attempt succeeds. -/
def regexAngleAux : List Char → Option String
  | [] => none
  | c :: rest =>
    if c = '<' then
      match angleAttempt rest with
      | some s => some s
      | none => regexAngleAux rest
    else regexAngleAux rest

/-- email-sender.js lines 198-201: the reply recipient — the capture of
`<(.+?)>` on the From header if it matches, else the raw From value; null
when the original has no From header. -/
def extractReplyTo (originalFrom : Option String) : Option String :=
  match originalFrom with
  | none => none
  | some f =>
    match regexAngleAux f.data with
    | some captured => some (if captured = "" then f else captured)
    | none => some f

/-- email-sender.js lines 160-263: the pure core of `replyToEmail` — threading
headers, subject, recipient and optional quoting derived from the fetched
original message; the fetch itself and the transmit/draft call around it are
I/O.  Fails when the Message-ID header is missing or empty (JS truthiness of
`if (!originalMessageId)`). -/
def replyCore (message : Message) (options : ReplyOptions) : Except ReplyError ReplyBuild :=
  let originalMessageId := getHeader message "Message-ID"
  let originalReferences := getHeader message "References"
  let originalSubject := getHeader message "Subject"
  let originalFrom := getHeader message "From"
  if truthyStr originalMessageId then
    let mid := originalMessageId.getD ""
    let references :=
      if truthyStr originalReferences then originalReferences.getD "" ++ " " ++ mid else mid
    let subject :=
      if (match originalSubject with
          | some s => jsStartsWith s "Re:"
          | none => false) then
        originalSubject.getD ""
      else "Re: " ++ jsOr originalSubject ""
    let toAddr := extractReplyTo originalFrom
    let originalBody := getMessageBody message
    let replyBodyTxt :=
      if options.quote && truthyStr options.bodyTxt && (originalBody.text != "") then
        some (options.bodyTxt.getD "" ++ "\n\nOn " ++ jsTmpl (getHeader message "Date") ++ ", " ++
          jsTmpl originalFrom ++ " wrote:\n" ++ quotedTextOf originalBody.text)
      else options.bodyTxt
    let replyBodyHtml :=
      if options.quote && truthyStr options.bodyHtml && (originalBody.html != "") then
        some (options.bodyHtml.getD "" ++ "<br><br><blockquote>" ++ originalBody.html ++
          "</blockquote>")
      else options.bodyHtml
    .ok { toAddr := toAddr, subject := subject, bodyTxt := replyBodyTxt, bodyHtml := replyBodyHtml,
          inReplyTo := mid, references := references, threadId := message.threadId }
  else .error .missingMessageId

/-- A persisted OAuth token as auth.js reads it. -/
structure Token where
  access_token : String
  refresh_token : Option String
  expiry_date : Option Int
deriving DecidableEq

/-- The failures of auth.js `getAuthClient`. -/
inductive AuthError where
  | notAuthenticated
  | tokenRefresh
deriving DecidableEq

/-- Observable outcome of one `getAuthClient` call: the returned client's
in-memory credentials (or the error), the token file after the call, and how
many refresh calls and `saveToken` calls were performed. -/
structure AuthCallResult where
  outcome : Except AuthError Token
  tokenFileAfter : Option Token
  refreshCalls : Nat
  saveCalls : Nat

/-- auth.js lines 145-167 (`getAuthClient`): loads the persisted token,
fails when none exists, refreshes at most once when
`token.expiry_date && token.expiry_date < Date.now()`, persisting and
installing the refreshed credentials on success and failing with the
re-login error on refresh failure.  `Date.now()` is the parameter `now`, the
stored token file is `storedToken`, and the network refresh outcome is
`refreshOutcome`. -/
def getAuthClient (now : Int) (storedToken : Option Token)
    (refreshOutcome : Except Unit Token) : AuthCallResult :=
  match storedToken with
  | none =>
    { outcome := .error .notAuthenticated, tokenFileAfter := none,
      refreshCalls := 0, saveCalls := 0 }
  | some token =>
    if truthyInt token.expiry_date && decide (token.expiry_date.getD 0 < now) then
      match refreshOutcome with
      | .ok credentials =>
        { outcome := .ok credentials, tokenFileAfter := some credentials,
          refreshCalls := 1, saveCalls := 1 }
      | .error _ =>
        { outcome := .error .tokenRefresh, tokenFileAfter := some token,
          refreshCalls := 1, saveCalls := 0 }
    else
      { outcome := .ok token, tokenFileAfter := some token,
        refreshCalls := 0, saveCalls := 0 }

/-- auth.js lines 246-255 (`logout`): deletes the token file when it exists,
otherwise only reports; the filesystem is the list of existing paths and the
second component is the message printed. -/
def logout (files : List String) (tokenFile : String) : List String × String :=
  if tokenFile ∈ files then
    (files.filter (· != tokenFile), "✓ Logged out successfully")
  else (files, "Not currently logged in")

/-! ## Concrete message fixtures used by witnesses and counterexamples. -/

/-- An original message whose subject is not yet prefixed. -/
def msgReport : Message :=
  { headers := [⟨"Message-ID", "<abc@x>"⟩, ⟨"Subject", "Report"⟩],
    payload := .mk "text/plain" none [], threadId := "t1" }

/-- An original message whose subject already starts with `Re:`. -/
def msgReReport : Message :=
  { headers := [⟨"Message-ID", "<abc@x>"⟩, ⟨"Subject", "Re: Report"⟩],
    payload := .mk "text/plain" none [], threadId := "t1" }

/-- An original message carrying both a plain body (`a\nb`, base64url `YQpi`)
and an HTML body (`<b>hi</b>`, base64url `PGI-aGk8L2I-`). -/
def msgWithBodies : Message :=
  { headers := [⟨"Message-ID", "<abc@x>"⟩, ⟨"Subject", "Report"⟩, ⟨"From", "N <n@x>"⟩,
      ⟨"Date", "Mon, 1 Jan 2024"⟩],
    payload := .mk "multipart/alternative" none
      [.mk "text/plain" (some "YQpi") [], .mk "text/html" (some "PGI-aGk8L2I-") []],
    threadId := "t2" }

/-- An original message whose Message-ID header is present but empty. -/
def msgEmptyMid : Message :=
  { headers := [⟨"Message-ID", ""⟩], payload := .mk "text/plain" none [], threadId := "t3" }

/-- An original message with a nonempty Message-ID and an empty References
header. -/
def msgEmptyRefs : Message :=
  { headers := [⟨"Message-ID", "<abc@x>"⟩, ⟨"References", ""⟩],
    payload := .mk "text/plain" none [], threadId := "t4" }

/-- The accumulator update of one visited part. -/
def stepOn (acc : MessageBody) (q : MimePart) : MessageBody :=
  bodyStep acc q.mimeType q.bodyData

/-! ## Supporting lemmas -/

theorem find?_first {α} (p : α → Bool) (pre : List α) (x : α) (post : List α)
    (hpre : ∀ y ∈ pre, p y = false) (hx : p x = true) :
    List.find? p (pre ++ x :: post) = some x := by
  induction pre with
  | nil => simp [List.find?_cons, hx]
  | cons a as ih =>
    have ha := hpre a (by simp)
    rw [List.cons_append, List.find?_cons_of_neg _ (by simp [ha])]
    exact ih (fun y hy => hpre y (by simp [hy]))

theorem find?_none {α} (p : α → Bool) (l : List α) (h : ∀ y ∈ l, p y = false) :
    List.find? p l = none := by
  induction l with
  | nil => rfl
  | cons a as ih =>
    rw [List.find?_cons_of_neg _ (by simp [h a (by simp)])]
    exact ih (fun y hy => h y (by simp [hy]))

/-! ## C9: logout -/

/-- C9: `logout` deletes the active profile's token file when it exists and is
a non-erroring no-op when it does not — with the token file absent it returns
normally, reports "Not currently logged in", and leaves the filesystem
unchanged; with it present it removes exactly that path. -/
theorem logout_spec :
    (∀ (files : List String) (tokenFile : String), tokenFile ∉ files →
      logout files tokenFile = (files, "Not currently logged in")) ∧
    (∀ (files : List String) (tokenFile : String), tokenFile ∈ files →
      logout files tokenFile =
        (files.filter (· != tokenFile), "✓ Logged out successfully")) := by
  constructor
  · intro files tokenFile h
    simp [logout, h]
  · intro files tokenFile h
    simp [logout, h]

/-- Witness for C9 at concrete filesystems: one without the token file and one
with it. -/
theorem logout_spec_witness :
    logout ["other.token.json"] "default.token.json" =
      (["other.token.json"], "Not currently logged in") ∧
    logout ["default.token.json", "other.token.json"] "default.token.json" =
      (["other.token.json"], "✓ Logged out successfully") :=
  ⟨logout_spec.1 ["other.token.json"] "default.token.json" (by decide),
   logout_spec.2 ["default.token.json", "other.token.json"] "default.token.json" (by decide)⟩

/-! ## C1: getAuthClient token refresh -/

/-- C1 counterexample: a persisted token with `expiry_date` 0 — a timestamp
strictly in the past (`Date.now()` here 1760000000000) — causes zero refresh
calls, because `token.expiry_date && token.expiry_date < Date.now()` is falsy
at 0; the claim demands exactly one. -/
theorem getAuthClient_zero_expiry_counterexample :
    (Token.mk "at" (some "rt") (some 0)).expiry_date = some 0 ∧
    (0 : Int) < 1760000000000 ∧
    (getAuthClient 1760000000000 (some (Token.mk "at" (some "rt") (some 0)))
      (.ok (Token.mk "new" (some "rt") (some 1760003600000)))).refreshCalls = 0 :=
  ⟨rfl, by decide, rfl⟩

/-- C1 (amended): for every persisted token whose `expiry_date` is present,
nonzero (JS-truthy) and strictly in the past, `getAuthClient` performs exactly
one refresh call, persists the refreshed token, installs it as the in-memory
credentials and returns the client; for every token whose `expiry_date` is in
the future it performs zero refresh calls; if the refresh call fails it raises
the distinct re-login `tokenRefresh` error, the previously persisted token
file is unchanged, and `saveToken` is never invoked. -/
theorem getAuthClient_refresh_spec :
    (∀ (now e : Int) (tok newTok : Token), tok.expiry_date = some e → e ≠ 0 → e < now →
      getAuthClient now (some tok) (.ok newTok) =
        { outcome := .ok newTok, tokenFileAfter := some newTok,
          refreshCalls := 1, saveCalls := 1 }) ∧
    (∀ (now e : Int) (tok : Token) (refreshOutcome : Except Unit Token),
      tok.expiry_date = some e → now < e →
      getAuthClient now (some tok) refreshOutcome =
        { outcome := .ok tok, tokenFileAfter := some tok,
          refreshCalls := 0, saveCalls := 0 }) ∧
    (∀ (now e : Int) (tok : Token) (u : Unit), tok.expiry_date = some e → e ≠ 0 → e < now →
      getAuthClient now (some tok) (.error u) =
        { outcome := .error .tokenRefresh, tokenFileAfter := some tok,
          refreshCalls := 1, saveCalls := 0 }) := by
  refine ⟨?_, ?_, ?_⟩
  · intro now e tok newTok he hne hlt
    simp [getAuthClient, truthyInt, he, hne, hlt]
  · intro now e tok refreshOutcome he hlt
    have : ¬ (e < now) := by omega
    simp [getAuthClient, truthyInt, he, this]
  · intro now e tok u he hne hlt
    simp [getAuthClient, truthyInt, he, hne, hlt]

/-- Witness for C1 at a concrete expired token (expiry 5, now 10), a valid
one (expiry 20, now 10) and a failing refresh. -/
theorem getAuthClient_refresh_spec_witness :
    getAuthClient 10 (some (Token.mk "old" (some "r") (some 5)))
        (.ok (Token.mk "new" (some "r") (some 99))) =
      { outcome := .ok (Token.mk "new" (some "r") (some 99)),
        tokenFileAfter := some (Token.mk "new" (some "r") (some 99)),
        refreshCalls := 1, saveCalls := 1 } ∧
    getAuthClient 10 (some (Token.mk "old" (some "r") (some 20)))
        (.ok (Token.mk "new" (some "r") (some 99))) =
      { outcome := .ok (Token.mk "old" (some "r") (some 20)),
        tokenFileAfter := some (Token.mk "old" (some "r") (some 20)),
        refreshCalls := 0, saveCalls := 0 } ∧
    getAuthClient 10 (some (Token.mk "old" (some "r") (some 5))) (.error ()) =
      { outcome := .error .tokenRefresh,
        tokenFileAfter := some (Token.mk "old" (some "r") (some 5)),
        refreshCalls := 1, saveCalls := 0 } :=
  ⟨getAuthClient_refresh_spec.1 10 5 _ _ rfl (by decide) (by decide),
   getAuthClient_refresh_spec.2.1 10 20 _ _ rfl (by decide),
   getAuthClient_refresh_spec.2.2 10 5 _ () rfl (by decide) (by decide)⟩

/-! ## C7: getLabelIdByName -/

theorem getLabelIdByName_eq (labelCache : Option (List GmailLabel))
    (fetched : List GmailLabel) (nm : String) :
    getLabelIdByName labelCache fetched nm =
      ((match (getLabels labelCache false fetched).1.find? (fun l => l.name == nm) with
        | some label => .ok label.id
        | none => .error (labelNotFoundMsg nm (getLabels labelCache false fetched).1)),
       (getLabels labelCache false fetched).2.1, (getLabels labelCache false fetched).2.2) := by
  simp only [getLabelIdByName]
  rcases getLabels labelCache false fetched with ⟨labels, cacheAfter, fetches⟩
  cases List.find? (fun l => l.name == nm) labels <;> rfl

/-- C7: `getLabelIdByName` resolves through the cache — using it untouched
with zero fetches when present, populating it with one fetch when empty,
never force-refreshing — returns the identifier of the first label whose name
equals the query exactly (so never a differently-cased or substring match:
any returned id belongs to a label whose name is strictly equal), and when no
label matches fails with the error message carrying the full list of
currently known label names. -/
theorem getLabelIdByName_spec :
    (∀ (cached fetched : List GmailLabel) (nm : String),
      (getLabelIdByName (some cached) fetched nm).2 = (some cached, 0)) ∧
    (∀ (fetched : List GmailLabel) (nm : String),
      (getLabelIdByName none fetched nm).2 = (some fetched, 1)) ∧
    (∀ (labelCache : Option (List GmailLabel)) (fetched pre post : List GmailLabel)
      (lab : GmailLabel) (nm : String),
      (getLabels labelCache false fetched).1 = pre ++ lab :: post →
      lab.name = nm → (∀ l ∈ pre, l.name ≠ nm) →
      (getLabelIdByName labelCache fetched nm).1 = .ok lab.id) ∧
    (∀ (labelCache : Option (List GmailLabel)) (fetched : List GmailLabel) (nm : String),
      (∀ l ∈ (getLabels labelCache false fetched).1, l.name ≠ nm) →
      (getLabelIdByName labelCache fetched nm).1 =
        .error (labelNotFoundMsg nm (getLabels labelCache false fetched).1)) ∧
    (∀ (labelCache : Option (List GmailLabel)) (fetched : List GmailLabel)
      (nm labId : String),
      (getLabelIdByName labelCache fetched nm).1 = .ok labId →
      ∃ lab, lab ∈ (getLabels labelCache false fetched).1 ∧ lab.name = nm ∧ lab.id = labId) := by
  refine ⟨?_, ?_, ?_, ?_, ?_⟩
  · intro cached fetched nm
    rw [getLabelIdByName_eq]
    cases (getLabels (some cached) false fetched).1.find? (fun l => l.name == nm) <;>
      simp [getLabels]
  · intro fetched nm
    rw [getLabelIdByName_eq]
    cases (getLabels none false fetched).1.find? (fun l => l.name == nm) <;>
      simp [getLabels]
  · intro labelCache fetched pre post lab nm hsplit hname hpre
    rw [getLabelIdByName_eq, hsplit,
      find?_first _ pre lab post (fun y hy => by simp [hpre y hy]) (by simp [hname])]
  · intro labelCache fetched nm hnone
    rw [getLabelIdByName_eq, find?_none _ _ (fun y hy => by simp [hnone y hy])]
  · intro labelCache fetched nm labId h
    rw [getLabelIdByName_eq] at h
    cases hf : (getLabels labelCache false fetched).1.find? (fun l => l.name == nm) with
    | none => rw [hf] at h; exact absurd h (by simp)
    | some lab =>
      rw [hf] at h
      refine ⟨lab, List.mem_of_find?_eq_some hf, ?_, by simpa using h⟩
      have := List.find?_some hf
      simpa using this

/-- Witness for C7: a concrete cache where the exact match "INBOX" is found
first (not the differently-cased "inbox" nor the substring-related "INBOX2"),
and a missing name that reports all known names. -/
theorem getLabelIdByName_spec_witness :
    (getLabelIdByName (some [⟨"L1", "inbox"⟩, ⟨"L2", "INBOX"⟩, ⟨"L3", "INBOX2"⟩])
      [] "INBOX").2 = (some [⟨"L1", "inbox"⟩, ⟨"L2", "INBOX"⟩, ⟨"L3", "INBOX2"⟩], 0) ∧
    (getLabelIdByName (some [⟨"L1", "inbox"⟩, ⟨"L2", "INBOX"⟩, ⟨"L3", "INBOX2"⟩])
      [] "INBOX").1 = .ok "L2" ∧
    (getLabelIdByName none [⟨"L1", "Work"⟩] "Play").1 =
      .error (labelNotFoundMsg "Play" [⟨"L1", "Work"⟩]) :=
  ⟨getLabelIdByName_spec.1 [⟨"L1", "inbox"⟩, ⟨"L2", "INBOX"⟩, ⟨"L3", "INBOX2"⟩] [] "INBOX",
   getLabelIdByName_spec.2.2.1 (some [⟨"L1", "inbox"⟩, ⟨"L2", "INBOX"⟩, ⟨"L3", "INBOX2"⟩]) []
     [⟨"L1", "inbox"⟩] [⟨"L3", "INBOX2"⟩] ⟨"L2", "INBOX"⟩ "INBOX" rfl rfl (by decide),
   getLabelIdByName_spec.2.2.2.1 none [⟨"L1", "Work"⟩] "Play" (by decide)⟩

/-! ## C3: attachment validation -/

theorem validateAll_early_error (fsSize : String → Option Nat) (pre : List String)
    (p : String) (post : List String) (e : MimeError)
    (hpre : ∀ q ∈ pre, ∃ n, validateAttachment fsSize q = .ok n)
    (hp : validateAttachment fsSize p = .error e) :
    validateAll fsSize (pre ++ p :: post) = .error e := by
  induction pre with
  | nil => simp [validateAll, hp]
  | cons a as ih =>
    obtain ⟨n, hn⟩ := hpre a (by simp)
    rw [List.cons_append, validateAll, hn, ih (fun q hq => hpre q (by simp [hq]))]

/-- C3: each attachment path is validated in list order — a nonexistent file
raises the not-found error, a file whose size strictly exceeds 35 MB raises
the too-large error, a file of at most 35 MB passes — and any single failing
file aborts before the total-size check regardless of what follows; only when
every file passes individually is the sum of attachment sizes compared
against 35 MB, failing with the message-too-large error exactly when the sum
strictly exceeds it; the error outcome depends only on the attachment list,
never on the body text. -/
theorem buildMimeMessage_size_checks :
    (∀ (fsSize : String → Option Nat) (pre : List String) (p : String)
      (post : List String) (e : MimeError),
      (∀ q ∈ pre, ∃ n, validateAttachment fsSize q = .ok n) →
      validateAttachment fsSize p = .error e →
      validateAttachments fsSize (pre ++ p :: post) = .error e) ∧
    (∀ (fsSize : String → Option Nat) (path : String), fsSize path = none →
      validateAttachment fsSize path = .error (.attachmentNotFound path)) ∧
    (∀ (fsSize : String → Option Nat) (path : String) (n : Nat), fsSize path = some n →
      MAX_MESSAGE_SIZE < n →
      validateAttachment fsSize path = .error (.attachmentTooLarge path)) ∧
    (∀ (fsSize : String → Option Nat) (path : String) (n : Nat), fsSize path = some n →
      n ≤ MAX_MESSAGE_SIZE → validateAttachment fsSize path = .ok n) ∧
    (∀ (fsSize : String → Option Nat) (paths : List String) (total : Nat), paths ≠ [] →
      validateAll fsSize paths = .ok total →
      validateAttachments fsSize paths =
        if MAX_MESSAGE_SIZE < total then .error .messageTooLarge else .ok total) ∧
    (∀ (fsSize : String → Option Nat) (paths : List String) (total : Nat),
      validateAll fsSize paths = .ok total →
      total = (paths.map (fun p => (fsSize p).getD 0)).sum) ∧
    (∀ (fsSize : String → Option Nat) (o1 o2 : SendOptions) (e : MimeError),
      o1.attachments = o2.attachments →
      (buildMimeMessage fsSize o1 = .error e ↔ buildMimeMessage fsSize o2 = .error e)) := by
  refine ⟨?_, ?_, ?_, ?_, ?_, ?_, ?_⟩
  · intro fsSize pre p post e hpre hp
    rw [validateAttachments, if_neg (by simp),
      validateAll_early_error fsSize pre p post e hpre hp]
  · intro fsSize path h
    simp [validateAttachment, h]
  · intro fsSize path n h hlt
    simp [validateAttachment, h, hlt]
  · intro fsSize path n h hle
    simp [validateAttachment, h, Nat.not_lt.mpr hle]
  · intro fsSize paths total hne hall
    rw [validateAttachments, if_neg (by simp [hne]), hall]
  · intro fsSize paths total hall
    induction paths generalizing total with
    | nil => simp [validateAll] at hall; simp [hall.symm]
    | cons a as ih =>
      rw [validateAll] at hall
      cases ha : validateAttachment fsSize a with
      | error e => rw [ha] at hall; exact absurd hall (by simp)
      | ok n =>
        rw [ha] at hall
        cases hrest : validateAll fsSize as with
        | error e => rw [hrest] at hall; exact absurd hall (by simp)
        | ok t =>
          rw [hrest] at hall
          have htot : n + t = total := by simpa using hall
          have hn : fsSize a = some n := by
            rw [validateAttachment] at ha
            cases hfa : fsSize a with
            | none => rw [hfa] at ha; simp at ha
            | some m =>
              rw [hfa] at ha
              by_cases hm : m > MAX_MESSAGE_SIZE
              · simp [hm] at ha
              · simp [hm] at ha; simp [ha]
          simp [← htot, hn, ih t hrest]
  · intro fsSize o1 o2 e hatt
    rw [buildMimeMessage, buildMimeMessage, hatt]
    cases validateAttachments fsSize o2.attachments <;> simp

/-- Witness for C3 at a concrete filesystem: a too-large file aborts in list
order before the sum check, a missing file fails, boundary files pass, and
two 20 MB files exceed the 35 MB total. -/
theorem buildMimeMessage_size_checks_witness :
    validateAttachments
        (fun p => if p = "a" then some 10 else if p = "big" then some 36700161 else
          if p = "c" then some 36700162 else none)
        (["a"] ++ "big" :: ["c", "missing"]) = .error (.attachmentTooLarge "big") ∧
    validateAttachment (fun _ => none) "nope" = .error (.attachmentNotFound "nope") ∧
    validateAttachment (fun _ => some 36700161) "b" = .error (.attachmentTooLarge "b") ∧
    validateAttachment (fun _ => some 36700160) "ok" = .ok 36700160 ∧
    validateAttachments (fun _ => some 20971520) ["d", "e"] = .error .messageTooLarge ∧
    (20971520 + (20971520 + 0) : Nat) =
      ((["d", "e"]).map (fun p => ((fun _ => some 20971520) p).getD 0)).sum := by
  refine ⟨?_, ?_, ?_, ?_, ?_, ?_⟩
  · exact buildMimeMessage_size_checks.1 _ ["a"] "big" ["c", "missing"] _
      (by intro q hq; simp at hq; subst hq; exact ⟨10, rfl⟩) rfl
  · exact buildMimeMessage_size_checks.2.1 _ "nope" rfl
  · exact buildMimeMessage_size_checks.2.2.1 _ "b" 36700161 rfl (by decide)
  · exact buildMimeMessage_size_checks.2.2.2.1 _ "ok" 36700160 rfl (by decide)
  · have := buildMimeMessage_size_checks.2.2.2.2.1 (fun _ => some 20971520) ["d", "e"]
      (20971520 + (20971520 + 0)) (by simp) rfl
    simpa [MAX_MESSAGE_SIZE] using this
  · exact buildMimeMessage_size_checks.2.2.2.2.2.1 (fun _ => some 20971520) ["d", "e"] _ rfl

/-! ## C5: reply subject derivation -/

/-- C5: for every original message with a Subject header (and a usable
Message-ID, so a reply is produced), the reply subject equals the original
subject when it already starts with the literal, case-sensitively matched
prefix `Re:`, and otherwise equals the original subject prefixed with
`Re: ` — so an already-prefixed subject is never double-prefixed. -/
theorem replySubject_spec (message : Message) (options : ReplyOptions) (s : String)
    (hmid : truthyStr (getHeader message "Message-ID") = true)
    (hsub : getHeader message "Subject" = some s) :
    (replyCore message options).map (·.subject) =
      .ok (if jsStartsWith s "Re:" then s else "Re: " ++ s) := by
  simp only [replyCore, hmid, if_true, hsub, Except.map]
  by_cases h : jsStartsWith s "Re:"
  · simp [h]
  · by_cases hs : s = "" <;> simp [h, jsOr, hs]

/-- Witness for C5: original subject `Report` yields `Re: Report`; original
subject `Re: Report` stays `Re: Report`. -/
theorem replySubject_spec_witness :
    (replyCore msgReport ⟨none, none, false⟩).map (·.subject) = .ok "Re: Report" ∧
    (replyCore msgReReport ⟨none, none, false⟩).map (·.subject) = .ok "Re: Report" := by
  constructor
  · rw [replySubject_spec msgReport ⟨none, none, false⟩ "Report" (by decide) (by decide)]
    rfl
  · rw [replySubject_spec msgReReport ⟨none, none, false⟩ "Re: Report" (by decide) (by decide)]
    rfl

/-! ## C10: quoting requires a new body of the same type -/

/-- C10: with quoting requested, a body type of the original is quoted only
when the caller supplied a new reply body of that type: with no (or an empty,
JS-falsy) plain-text reply body the composed reply's plain body is exactly
the caller's value — the original's plain body is omitted entirely even when
present, and no plain body is created by quoting alone; symmetrically for
HTML. -/
theorem replyQuoteNeedsBody_spec :
    (∀ (message : Message) (options : ReplyOptions),
      options.quote = true →
      truthyStr (getHeader message "Message-ID") = true →
      truthyStr options.bodyTxt = false →
      (replyCore message options).map (·.bodyTxt) = .ok options.bodyTxt) ∧
    (∀ (message : Message) (options : ReplyOptions),
      options.quote = true →
      truthyStr (getHeader message "Message-ID") = true →
      truthyStr options.bodyHtml = false →
      (replyCore message options).map (·.bodyHtml) = .ok options.bodyHtml) := by
  constructor <;> intro message options hq hmid hb <;>
    simp [replyCore, hmid, hb, Except.map]

/-- Witness for C10 on an original that does carry both bodies: a quote
request without a plain-text reply body yields no plain body at all, and one
without an HTML reply body yields no HTML body. -/
theorem replyQuoteNeedsBody_spec_witness :
    (replyCore msgWithBodies ⟨none, some "<p>r</p>", true⟩).map (·.bodyTxt) = .ok none ∧
    (replyCore msgWithBodies ⟨some "r", none, true⟩).map (·.bodyHtml) = .ok none := by
  constructor
  · rw [replyQuoteNeedsBody_spec.1 msgWithBodies ⟨none, some "<p>r</p>", true⟩ rfl
      (by decide) rfl]
  · rw [replyQuoteNeedsBody_spec.2 msgWithBodies ⟨some "r", none, true⟩ rfl (by decide) rfl]

/-! ## C2: reply threading headers -/

/-- C2 counterexample: an original with a present but empty Message-ID header
fails with the missing-Message-ID error even though it has a Message-ID
header; and an original with Message-ID `<abc@x>` and a present but empty
References header produces References `<abc@x>`, not the claimed
concatenation `"" ++ " " ++ "<abc@x>"`. -/
theorem replyThreading_counterexample :
    (Header.mk "Message-ID" "" ∈ msgEmptyMid.headers ∧
      replyCore msgEmptyMid ⟨none, none, false⟩ = .error .missingMessageId) ∧
    (Header.mk "References" "" ∈ msgEmptyRefs.headers ∧
      (replyCore msgEmptyRefs ⟨none, none, false⟩).map (·.references) = .ok "<abc@x>" ∧
      ("<abc@x>" : String) ≠ "" ++ " " ++ "<abc@x>") :=
  ⟨⟨by decide, rfl⟩, ⟨by decide, rfl, by decide⟩⟩

/-- C2 (amended): if the original's Message-ID header is missing or empty
(JS-falsy), `replyToEmail` fails with the missing-Message-ID error; otherwise
the composed reply carries In-Reply-To equal to the original Message-ID and
References equal to the original References concatenated with a single space
and the Message-ID when the original has a nonempty References header, or
equal to just the Message-ID when References is absent or empty — prior chain
entries are never replaced or dropped. -/
theorem replyThreading_spec :
    (∀ (message : Message) (options : ReplyOptions),
      truthyStr (getHeader message "Message-ID") = false →
      replyCore message options = .error .missingMessageId) ∧
    (∀ (message : Message) (options : ReplyOptions) (mid : String),
      getHeader message "Message-ID" = some mid → mid ≠ "" →
      (replyCore message options).map (·.inReplyTo) = .ok mid ∧
      (replyCore message options).map (·.references) =
        .ok (match getHeader message "References" with
             | some refs => if refs = "" then mid else refs ++ " " ++ mid
             | none => mid)) := by
  constructor
  · intro message options h
    simp [replyCore, h]
  · intro message options mid hmid hne
    have ht : truthyStr (getHeader message "Message-ID") = true := by
      simp [hmid, truthyStr, hne]
    constructor
    · simp [replyCore, ht, hmid, truthyStr, hne, Except.map]
    · cases h : getHeader message "References" with
      | none => simp [replyCore, ht, hmid, h, truthyStr, hne, Except.map]
      | some refs =>
        by_cases hr : refs = "" <;>
          simp [replyCore, ht, hmid, h, truthyStr, hne, hr, Except.map]

/-- Witness for C2 at concrete originals: no prior References gives
References `<abc@x>`; prior References `<a@x> <b@x>` gives
`<a@x> <b@x> <abc@x>` with the chain preserved. -/
theorem replyThreading_spec_witness :
    ((replyCore msgReport ⟨none, none, false⟩).map (·.inReplyTo) = .ok "<abc@x>" ∧
      (replyCore msgReport ⟨none, none, false⟩).map (·.references) = .ok "<abc@x>") ∧
    (replyCore
        { headers := [⟨"Message-ID", "<abc@x>"⟩, ⟨"References", "<a@x> <b@x>"⟩],
          payload := .mk "text/plain" none [], threadId := "t5" }
        ⟨none, none, false⟩).map (·.references) = .ok "<a@x> <b@x> <abc@x>" := by
  refine ⟨⟨?_, ?_⟩, ?_⟩
  · exact (replyThreading_spec.2 msgReport ⟨none, none, false⟩ "<abc@x>" (by decide)
      (by decide)).1
  · rw [(replyThreading_spec.2 msgReport ⟨none, none, false⟩ "<abc@x>" (by decide)
      (by decide)).2]
    rfl
  · rw [(replyThreading_spec.2
      { headers := [⟨"Message-ID", "<abc@x>"⟩, ⟨"References", "<a@x> <b@x>"⟩],
        payload := .mk "text/plain" none [], threadId := "t5" }
      ⟨none, none, false⟩ "<abc@x>" (by decide) (by decide)).2]
    rfl

/-! ## Line-splitting lemmas for the quoting and round-trip claims -/

theorem splitNlAux_no_nl (xs : List Char) (acc : List Char) (h : '\n' ∉ xs) :
    splitNlAux xs acc = [String.mk (acc.reverse ++ xs)] := by
  induction xs generalizing acc with
  | nil => simp [splitNlAux]
  | cons c cs ih =>
    have hc : ¬ c = '\n' := fun hh => h (by simp [hh])
    rw [splitNlAux, if_neg hc, ih _ (fun hm => h (by simp [hm]))]
    simp

theorem splitNlAux_append (xs : List Char) (acc : List Char) (ys : List Char)
    (h : '\n' ∉ xs) :
    splitNlAux (xs ++ '\n' :: ys) acc = String.mk (acc.reverse ++ xs) :: splitNlAux ys [] := by
  induction xs generalizing acc with
  | nil => simp [splitNlAux]
  | cons c cs ih =>
    have hc : ¬ c = '\n' := fun hh => h (by simp [hh])
    rw [List.cons_append, splitNlAux, if_neg hc, ih _ (fun hm => h (by simp [hm]))]
    simp

theorem splitNl_append (s t : String) (h : '\n' ∉ s.data) :
    splitNl (s ++ "\n" ++ t) = s :: splitNl t := by
  rw [splitNl, splitNl]
  have hd : (s ++ "\n" ++ t).data = s.data ++ '\n' :: t.data := by
    simp [String.data_append]
  rw [hd, splitNlAux_append _ _ _ h]
  rfl

theorem splitNlAux_ne_nil (xs acc : List Char) : splitNlAux xs acc ≠ [] := by
  induction xs generalizing acc with
  | nil => simp [splitNlAux]
  | cons c cs ih =>
    rw [splitNlAux]
    by_cases hc : c = '\n' <;> simp [hc, ih]

theorem splitNl_ne_nil (s : String) : splitNl s ≠ [] :=
  splitNlAux_ne_nil s.data []

theorem splitNlAux_pieces (xs acc : List Char) (hacc : '\n' ∉ acc) :
    ∀ p ∈ splitNlAux xs acc, '\n' ∉ p.data := by
  induction xs generalizing acc with
  | nil =>
    intro p hp
    simp [splitNlAux] at hp
    subst hp
    intro hm
    exact hacc (by simpa using hm)
  | cons c cs ih =>
    intro p hp
    rw [splitNlAux] at hp
    by_cases hc : c = '\n'
    · rw [if_pos hc] at hp
      rcases List.mem_cons.mp hp with hfst | hrest
      · subst hfst
        intro hm
        exact hacc (by simpa using hm)
      · exact ih [] (by simp) p hrest
    · rw [if_neg hc] at hp
      exact ih (c :: acc) (by simp [hacc, Ne.symm hc]) p hp

theorem splitNl_pieces (s : String) : ∀ p ∈ splitNl s, '\n' ∉ p.data :=
  splitNlAux_pieces s.data [] (by simp)

theorem splitNl_joinNl (ls : List String) (hne : ls ≠ []) (h : ∀ p ∈ ls, '\n' ∉ p.data) :
    splitNl (joinNl ls) = ls := by
  induction ls with
  | nil => cases hne rfl
  | cons x rest ih =>
    cases rest with
    | nil =>
      show splitNl (joinNl [x]) = [x]
      rw [joinNl, splitNl, splitNlAux_no_nl _ _ (h x (by simp))]
      rfl
    | cons y rest2 =>
      show splitNl (x ++ "\n" ++ joinNl (y :: rest2)) = x :: y :: rest2
      rw [splitNl_append _ _ (h x (by simp)),
        ih (by simp) (fun p hp => h p (by simp [hp]))]

/-! ## C6: reply quoting -/

/-- C6: when quoting is requested (and a reply is produced), the plain-text
reply body is the new plain body, a blank line, the attribution line
`On {date}, {from} wrote:`, and then the quoted block, whose lines are
exactly the lines of the original plain body each prefixed with `> `; the
HTML reply body is the new HTML body followed by the original HTML body
wrapped in a blockquote element; each body type is quoted under conditions on
that type only, so quoting of each is skipped independently of the other. -/
theorem replyQuoting_spec :
    (∀ (message : Message) (options : ReplyOptions) (t : String),
      options.quote = true → options.bodyTxt = some t → t ≠ "" →
      truthyStr (getHeader message "Message-ID") = true →
      (getMessageBody message).text ≠ "" →
      (replyCore message options).map (·.bodyTxt) =
        .ok (some (t ++ "\n\nOn " ++ jsTmpl (getHeader message "Date") ++ ", " ++
          jsTmpl (getHeader message "From") ++ " wrote:\n" ++
          quotedTextOf (getMessageBody message).text))) ∧
    (∀ s : String,
      splitNl (quotedTextOf s) = (splitNl s).map (fun line => "> " ++ line)) ∧
    (∀ (message : Message) (options : ReplyOptions) (hb : String),
      options.quote = true → options.bodyHtml = some hb → hb ≠ "" →
      truthyStr (getHeader message "Message-ID") = true →
      (getMessageBody message).html ≠ "" →
      (replyCore message options).map (·.bodyHtml) =
        .ok (some (hb ++ "<br><br><blockquote>" ++ (getMessageBody message).html ++
          "</blockquote>"))) := by
  refine ⟨?_, ?_, ?_⟩
  · intro message options t hq hbt htne hmid htext
    have hbt2 : truthyStr (some t) = true := by simp [truthyStr, htne]
    simp [replyCore, hmid, hq, hbt2, hbt, htext, Except.map]
  · intro s
    rw [quotedTextOf, splitNl_joinNl]
    · simpa using splitNl_ne_nil s
    · intro p hp
      simp at hp
      obtain ⟨line, hline, rfl⟩ := hp
      intro hm
      rw [String.data_append] at hm
      rcases List.mem_append.mp hm with hm | hm
      · exact absurd hm (by decide)
      · exact splitNl_pieces s line hline hm
  · intro message options hb hq hbh hhne hmid hhtml
    have hbh2 : truthyStr (some hb) = true := by simp [truthyStr, hhne]
    simp [replyCore, hmid, hq, hbh2, hbh, hhtml, Except.map]

/-- Witness for C6 on an original with plain body `a\nb` and HTML body
`<b>hi</b>`: the quoted block reads `> a\n> b` after the attribution line,
and the HTML is wrapped in a blockquote. -/
theorem replyQuoting_spec_witness :
    (replyCore msgWithBodies ⟨some "Thanks!", some "<p>T</p>", true⟩).map (·.bodyTxt) =
      .ok (some "Thanks!\n\nOn Mon, 1 Jan 2024, N <n@x> wrote:\n> a\n> b") ∧
    (replyCore msgWithBodies ⟨some "Thanks!", some "<p>T</p>", true⟩).map (·.bodyHtml) =
      .ok (some "<p>T</p><br><br><blockquote><b>hi</b></blockquote>") ∧
    splitNl (quotedTextOf "a\nb") = ["> a", "> b"] := by
  refine ⟨?_, ?_, ?_⟩
  · rw [replyQuoting_spec.1 msgWithBodies ⟨some "Thanks!", some "<p>T</p>", true⟩ "Thanks!"
      rfl rfl (by decide) (by decide) (by decide)]
    rfl
  · rw [replyQuoting_spec.2.2 msgWithBodies ⟨some "Thanks!", some "<p>T</p>", true⟩ "<p>T</p>"
      rfl rfl (by decide) (by decide) (by decide)]
    rfl
  · rw [replyQuoting_spec.2.1 "a\nb"]
    rfl

/-! ## C4: getMessageBody traversal order -/

mutual

theorem extractBody_eq_foldl (acc : MessageBody) (p : MimePart) :
    extractBody acc p = (dfsOrder p).foldl stepOn acc := by
  match p with
  | .mk mt bd ps =>
    simp only [extractBody, dfsOrder, List.foldl_cons]
    exact extractParts_eq_foldl (bodyStep acc mt bd) ps

theorem extractParts_eq_foldl (acc : MessageBody) (ps : List MimePart) :
    extractParts acc ps = (dfsList ps).foldl stepOn acc := by
  match ps with
  | [] => rfl
  | p :: rest =>
    simp only [extractParts, dfsList, List.foldl_append, ← extractBody_eq_foldl acc p]
    exact extractParts_eq_foldl (extractBody acc p) rest

end

theorem stepOn_text (acc : MessageBody) (q : MimePart) :
    (stepOn acc q).text =
      if isPlainPart q then decodeBase64Url (q.bodyData.getD "") else acc.text := by
  rw [stepOn, bodyStep, isPlainPart]
  by_cases h1 : (q.mimeType == "text/plain" && truthyStr q.bodyData) = true
  · simp [h1]
  · by_cases h2 : (q.mimeType == "text/html" && truthyStr q.bodyData) = true <;>
      simp [h1, h2]

theorem stepOn_html (acc : MessageBody) (q : MimePart) :
    (stepOn acc q).html =
      if isHtmlPart q then decodeBase64Url (q.bodyData.getD "") else acc.html := by
  rw [stepOn, bodyStep, isHtmlPart]
  by_cases h1 : (q.mimeType == "text/plain" && truthyStr q.bodyData) = true
  · have hmt : q.mimeType = "text/plain" := by
      have := (Bool.and_eq_true _ _).mp h1
      exact beq_iff_eq.mp this.1
    simp [h1, hmt]
    split <;> rfl
  · by_cases h2 : (q.mimeType == "text/html" && truthyStr q.bodyData) = true <;>
      simp [h1, h2]

theorem foldl_stepOn_text (L : List MimePart) (acc : MessageBody) :
    (L.foldl stepOn acc).text =
      match lastMatch? isPlainPart L with
      | some q => decodeBase64Url (q.bodyData.getD "")
      | none => acc.text := by
  induction L generalizing acc with
  | nil => rfl
  | cons q rest ih =>
    rw [List.foldl_cons, ih, lastMatch?]
    cases hl : lastMatch? isPlainPart rest with
    | some r => rfl
    | none =>
      by_cases hq : isPlainPart q = true <;> simp [hq, stepOn_text]

theorem foldl_stepOn_html (L : List MimePart) (acc : MessageBody) :
    (L.foldl stepOn acc).html =
      match lastMatch? isHtmlPart L with
      | some q => decodeBase64Url (q.bodyData.getD "")
      | none => acc.html := by
  induction L generalizing acc with
  | nil => rfl
  | cons q rest ih =>
    rw [List.foldl_cons, ih, lastMatch?]
    cases hl : lastMatch? isHtmlPart rest with
    | some r => rfl
    | none =>
      by_cases hq : isHtmlPart q = true <;> simp [hq, stepOn_html]

/-- C4: `getMessageBody` examines the top-level payload first and then walks
the part tree depth-first with each part examined before its children — the
order `dfsOrder` — and each `text/plain` (resp. `text/html`) part carrying
inline body data overwrites the corresponding accumulator, so the result is
exactly the decoded data of the last matching part of each type in that
order, with no concatenation, and empty when no part of the type matches. -/
theorem getMessageBody_lastWins (message : Message) :
    getMessageBody message =
      { text :=
          match lastMatch? isPlainPart (dfsOrder message.payload) with
          | some q => decodeBase64Url (q.bodyData.getD "")
          | none => "",
        html :=
          match lastMatch? isHtmlPart (dfsOrder message.payload) with
          | some q => decodeBase64Url (q.bodyData.getD "")
          | none => "" } := by
  have h1 : getMessageBody message = (dfsOrder message.payload).foldl stepOn ⟨"", ""⟩ := by
    cases hp : message.payload with
    | mk mt bd ps =>
      rw [getMessageBody, hp]
      show extractParts (bodyStep ⟨"", ""⟩ mt bd) ps = _
      rw [extractParts_eq_foldl, dfsOrder, List.foldl_cons]
      rfl
  have ht := foldl_stepOn_text (dfsOrder message.payload) ⟨"", ""⟩
  have hh := foldl_stepOn_html (dfsOrder message.payload) ⟨"", ""⟩
  rw [h1]
  rcases hM : (dfsOrder message.payload).foldl stepOn ⟨"", ""⟩ with ⟨tx, hx⟩
  rw [hM] at ht hh
  simp only [MessageBody.mk.injEq]
  exact ⟨ht, hh⟩

/-! ## Base64url round-trip lemmas for C8 -/

theorem decCharVal_encChar : ∀ n, n < 64 → decCharVal (encChar n) = n := by decide

theorem encChar_ne_pad : ∀ n, n < 64 → encChar n ≠ '=' := by decide

theorem substToUrl_encChar_ne_pad : ∀ n, n < 64 → substToUrl (encChar n) ≠ '=' := by decide

theorem substRound : ∀ n, n < 64 → substFromUrl (substToUrl (encChar n)) = encChar n := by
  decide

theorem stripTrailingEq_append (a b : List Char) (hb : stripTrailingEq b ≠ []) :
    stripTrailingEq (a ++ b) = a ++ stripTrailingEq b := by
  induction a with
  | nil => rfl
  | cons c cs ih =>
    rw [List.cons_append, stripTrailingEq, ih]
    cases hcs : cs ++ stripTrailingEq b with
    | nil => exact absurd (List.append_eq_nil.mp hcs).2 hb
    | cons x xs => rw [List.cons_append, hcs]

theorem stripTrailingEq_eq_nil_iff (l : List Char) :
    stripTrailingEq l = [] ↔ ∀ c ∈ l, c = '=' := by
  induction l with
  | nil => simp [stripTrailingEq]
  | cons c cs ih =>
    rw [stripTrailingEq]
    cases h : stripTrailingEq cs with
    | nil =>
      have hcs : ∀ x ∈ cs, x = '=' := ih.mp h
      by_cases hc : c = '='
      · simp [hc]
        exact hcs
      · simp [hc]
    | cons x xs =>
      have hncs : ¬ ∀ x ∈ cs, x = '=' := fun hh => by rw [ih.mpr hh] at h; cases h
      simp only [List.mem_cons]
      constructor
      · intro hfalse; cases hfalse
      · intro hall
        exact absurd (fun y hy => hall y (Or.inr hy)) hncs

theorem strip_two_pad (s1 s2 : Char) (h2 : s2 ≠ '=') :
    stripTrailingEq [s1, s2, '=', '='] = [s1, s2] := by
  simp [stripTrailingEq, h2]

theorem strip_one_pad (s1 s2 s3 : Char) (h3 : s3 ≠ '=') :
    stripTrailingEq [s1, s2, s3, '='] = [s1, s2, s3] := by
  simp [stripTrailingEq, h3]

theorem strip_no_pad (s1 s2 s3 s4 : Char) (h4 : s4 ≠ '=') :
    stripTrailingEq [s1, s2, s3, s4] = [s1, s2, s3, s4] := by
  simp [stripTrailingEq, h4]

theorem strip_cons4 (s1 s2 s3 s4 : Char) (l : List Char) (hl : stripTrailingEq l ≠ []) :
    stripTrailingEq (s1 :: s2 :: s3 :: s4 :: l) =
      s1 :: s2 :: s3 :: s4 :: stripTrailingEq l := by
  have h := stripTrailingEq_append [s1, s2, s3, s4] l hl
  simpa using h

theorem strip_enc_ne_nil (bs : List Nat) (hne : bs ≠ []) (hb : ∀ b ∈ bs, b < 256) :
    stripTrailingEq ((b64EncodeRaw bs).map substToUrl) ≠ [] := by
  match bs with
  | b1 :: rest =>
    have h1 : b1 / 4 < 64 := by have := hb b1 (by simp); omega
    have hchar : substToUrl (encChar (b1 / 4)) ≠ '=' := substToUrl_encChar_ne_pad _ h1
    intro hnil
    rw [stripTrailingEq_eq_nil_iff] at hnil
    apply hchar
    apply hnil
    match rest with
    | [] => simp [b64EncodeRaw]
    | [b2] => simp [b64EncodeRaw]
    | b2 :: b3 :: r => simp [b64EncodeRaw]

theorem b64_roundtrip : ∀ bs : List Nat, (∀ b ∈ bs, b < 256) →
    b64DecodeRaw ((stripTrailingEq ((b64EncodeRaw bs).map substToUrl)).map substFromUrl) =
      bs := by
  intro bs
  induction bs using b64EncodeRaw.induct with
  | case1 => intro _; rfl
  | case2 b1 =>
    intro hb
    have h1 : b1 < 256 := hb b1 (by simp)
    have e1 : b1 / 4 < 64 := by omega
    have e2 : b1 % 4 * 16 < 64 := by omega
    rw [b64EncodeRaw, List.map_cons, List.map_cons, List.map_cons, List.map_cons,
      List.map_nil, show substToUrl '=' = '=' from rfl,
      strip_two_pad _ _ (substToUrl_encChar_ne_pad _ e2),
      List.map_cons, List.map_cons, List.map_nil, substRound _ e1, substRound _ e2,
      b64DecodeRaw, decCharVal_encChar _ e1, decCharVal_encChar _ e2]
    congr 1
    omega
  | case3 b1 b2 =>
    intro hb
    have h1 : b1 < 256 := hb b1 (by simp)
    have h2 : b2 < 256 := hb b2 (by simp)
    have e1 : b1 / 4 < 64 := by omega
    have e2 : b1 % 4 * 16 + b2 / 16 < 64 := by omega
    have e3 : b2 % 16 * 4 < 64 := by omega
    rw [b64EncodeRaw, List.map_cons, List.map_cons, List.map_cons, List.map_cons,
      List.map_nil, show substToUrl '=' = '=' from rfl,
      strip_one_pad _ _ _ (substToUrl_encChar_ne_pad _ e3),
      List.map_cons, List.map_cons, List.map_cons, List.map_nil,
      substRound _ e1, substRound _ e2, substRound _ e3,
      b64DecodeRaw, if_neg (encChar_ne_pad _ e3),
      decCharVal_encChar _ e1, decCharVal_encChar _ e2, decCharVal_encChar _ e3]
    simp only [List.cons.injEq, and_true]
    refine ⟨by omega, by omega⟩
  | case4 b1 b2 b3 rest ih =>
    intro hb
    have h1 : b1 < 256 := hb b1 (by simp)
    have h2 : b2 < 256 := hb b2 (by simp)
    have h3 : b3 < 256 := hb b3 (by simp)
    have hbrest : ∀ b ∈ rest, b < 256 := fun b hbm => hb b (by simp [hbm])
    have e1 : b1 / 4 < 64 := by omega
    have e2 : b1 % 4 * 16 + b2 / 16 < 64 := by omega
    have e3 : b2 % 16 * 4 + b3 / 64 < 64 := by omega
    have e4 : b3 % 64 < 64 := by omega
    rw [b64EncodeRaw, List.map_cons, List.map_cons, List.map_cons, List.map_cons]
    cases hrest : rest with
    | nil =>
      rw [show b64EncodeRaw [] = [] from rfl, List.map_nil,
        strip_no_pad _ _ _ _ (substToUrl_encChar_ne_pad _ e4),
        List.map_cons, List.map_cons, List.map_cons, List.map_cons, List.map_nil,
        substRound _ e1, substRound _ e2, substRound _ e3, substRound _ e4,
        b64DecodeRaw, if_neg (encChar_ne_pad _ e3), if_neg (encChar_ne_pad _ e4),
        decCharVal_encChar _ e1, decCharVal_encChar _ e2, decCharVal_encChar _ e3,
        decCharVal_encChar _ e4]
      have m1 : (b1 % 4 * 16 + b2 / 16) / 16 = b1 % 4 := by omega
      have m2 : (b1 % 4 * 16 + b2 / 16) % 16 = b2 / 16 := by omega
      have m3 : (b2 % 16 * 4 + b3 / 64) / 4 = b2 % 16 := by omega
      have m4 : (b2 % 16 * 4 + b3 / 64) % 4 = b3 / 64 := by omega
      simp only [List.cons.injEq]
      refine ⟨by omega, by omega, by omega, by trivial⟩
    | cons r0 rtail =>
      have hstrip : stripTrailingEq ((b64EncodeRaw (r0 :: rtail)).map substToUrl) ≠ [] :=
        strip_enc_ne_nil (r0 :: rtail) (by simp) (by rw [← hrest]; exact hbrest)
      rw [strip_cons4 _ _ _ _ _ hstrip,
        List.map_cons, List.map_cons, List.map_cons, List.map_cons,
        substRound _ e1, substRound _ e2, substRound _ e3, substRound _ e4,
        b64DecodeRaw, if_neg (encChar_ne_pad _ e3), if_neg (encChar_ne_pad _ e4),
        decCharVal_encChar _ e1, decCharVal_encChar _ e2, decCharVal_encChar _ e3,
        decCharVal_encChar _ e4, ← hrest, ih hbrest]
      have m1 : (b1 % 4 * 16 + b2 / 16) / 16 = b1 % 4 := by omega
      have m2 : (b1 % 4 * 16 + b2 / 16) % 16 = b2 / 16 := by omega
      have m3 : (b2 % 16 * 4 + b3 / 64) / 4 = b2 % 16 := by omega
      have m4 : (b2 % 16 * 4 + b3 / 64) % 4 = b3 / 64 := by omega
      simp only [List.cons.injEq]
      refine ⟨by omega, by omega, by omega, by trivial⟩

/-! ## C8: transport encoding round trip -/

theorem map_ofNat_toNat (l : List Char) : (l.map Char.toNat).map Char.ofNat = l := by
  induction l with
  | nil => rfl
  | cons c cs ih => simp [ih, Char.ofNat_toNat]

theorem decodeBase64Url_encodeRawMessage (bs : List Nat) (hne : bs ≠ [])
    (hb : ∀ b ∈ bs, b < 256) :
    decodeBase64Url (encodeRawMessage bs) = String.mk (bs.map Char.ofNat) := by
  rw [encodeRawMessage, decodeBase64Url,
    if_neg (fun h => strip_enc_ne_nil bs hne hb (congrArg String.data h))]
  rw [show (String.mk (stripTrailingEq ((b64EncodeRaw bs).map substToUrl))).data =
      stripTrailingEq ((b64EncodeRaw bs).map substToUrl) from rfl]
  rw [b64_roundtrip bs hb]

/-- C8: the transport encoding produced by `buildMimeMessage` is URL-safe
base64 of the raw rendered message with `+` replaced by `-`, `/` by `_` and
trailing `=` padding stripped, and decoding the encoded form exactly as
`decodeBase64Url` does recovers the raw message — whose lines are precisely
the recipient line, the subject line, the blank separator and the body text,
reproducing subject, recipient and body exactly. -/
theorem buildMimeMessage_roundTrip (fsSize : String → Option Nat) (options : SendOptions)
    (hatt : options.attachments = [])
    (hascii : ∀ c ∈ (mimeRender options).data, c.toNat < 128)
    (hto : '\n' ∉ options.toAddr.data) (hsub : '\n' ∉ options.subject.data) :
    buildMimeMessage fsSize options = .ok (encodeRawMessage (strBytes (mimeRender options))) ∧
    decodeBase64Url (encodeRawMessage (strBytes (mimeRender options))) = mimeRender options ∧
    splitNl (mimeRender options) =
      ("To: " ++ options.toAddr) :: ("Subject: " ++ options.subject) :: "" ::
        splitNl (options.bodyTxt.getD "") := by
  refine ⟨?_, ?_, ?_⟩
  · rw [buildMimeMessage, hatt]
    rfl
  · have hne : strBytes (mimeRender options) ≠ [] := by
      rw [strBytes]
      intro h
      have hdata : (mimeRender options).data = [] := List.map_eq_nil_iff.mp h
      rw [mimeRender] at hdata
      simp [String.data_append] at hdata
    have hb : ∀ b ∈ strBytes (mimeRender options), b < 256 := by
      intro b hbmem
      rw [strBytes] at hbmem
      obtain ⟨c, hc, rfl⟩ := List.mem_map.mp hbmem
      have := hascii c hc
      omega
    rw [decodeBase64Url_encodeRawMessage _ hne hb, strBytes, map_ofNat_toNat]
  · rw [mimeRender]
    rw [splitNl_append ("To: " ++ options.toAddr) _ (by
      rw [String.data_append]
      intro hm
      rcases List.mem_append.mp hm with hm | hm
      · exact absurd hm (by decide)
      · exact hto hm)]
    rw [splitNl_append ("Subject: " ++ options.subject) _ (by
      rw [String.data_append]
      intro hm
      rcases List.mem_append.mp hm with hm | hm
      · exact absurd hm (by decide)
      · exact hsub hm)]
    rw [splitNl_append "" _ (by decide)]

/-- Witness for C8 at a concrete request (to `a@b.c`, subject `Hi`, body
`Hello`, no attachments): the encoded form, the decode of it, and the
decomposition of the raw message into recipient, subject and body lines. -/
theorem buildMimeMessage_roundTrip_witness :
    buildMimeMessage (fun _ => none) ⟨"a@b.c", "Hi", some "Hello", none, [], [], [], []⟩ =
      .ok "VG86IGFAYi5jClN1YmplY3Q6IEhpCgpIZWxsbw" ∧
    decodeBase64Url "VG86IGFAYi5jClN1YmplY3Q6IEhpCgpIZWxsbw" =
      "To: a@b.c\nSubject: Hi\n\nHello" ∧
    splitNl (mimeRender ⟨"a@b.c", "Hi", some "Hello", none, [], [], [], []⟩) =
      ["To: a@b.c", "Subject: Hi", "", "Hello"] := by
  have h := buildMimeMessage_roundTrip (fun _ => none)
    ⟨"a@b.c", "Hi", some "Hello", none, [], [], [], []⟩ rfl (by decide) (by decide) (by decide)
  refine ⟨?_, ?_, ?_⟩
  · rw [h.1]
    rfl
  · have h2 := h.2.1
    rw [show encodeRawMessage (strBytes
        (mimeRender ⟨"a@b.c", "Hi", some "Hello", none, [], [], [], []⟩)) =
      "VG86IGFAYi5jClN1YmplY3Q6IEhpCgpIZWxsbw" from rfl] at h2
    rw [h2]
    rfl
  · rw [h.2.2]
    rfl
